import Mathlib

/-!
Verification of `src/caches.py` (delta-utils): a shallow embedding of the class
`ArrowDeltaSimpleCache`, an in-memory cache for a DeltaTable that uses DuckDB
as its query engine.

Modelling choices, traceable to the source:
* A columnar batch (`pyarrow.Table` contents) is abstracted as a `Batch := Nat`
  identifier: the claims only compare batches for equality with materializations.
* External collaborator calls performed during *one* cache operation are packaged
  in an `Env`: the result of `DeltaTable.version()` (`versionCall`), the result
  of `DeltaTable.to_pyarrow_table()` (`materializeCall`), the query engine's
  evaluation of SQL against its registry (`execCall`), and whether the logger
  sink succeeds (`sinkOk`).  Each call may fail (a raised Python exception),
  modelled by `Except Err`.
* The cache instance state is `CacheState`: the private fields
  `__current_version`, `__cached_table`, the DuckDB connection's registry of
  named datasets, and the messages emitted to the logger sink so far.
* Python mutates the object in place, so a raised exception leaves all
  mutations performed before the raise.  Operations therefore return
  `Except Err α × CacheState`: the state component is meaningful even when the
  result is an error.
* The DuckDB engine's registration semantics follow the external-interface
  contract in the spec: re-registration under the same name replaces the entry
  (`registerName`), and unregistering a name that is not registered fails
  (`unregisterName`).
-/

namespace DeltaUtils

/-- Contents of a columnar batch, abstracted to an identifier. -/
abbrev Batch := Nat

/-- Failures of external collaborator calls (raised Python exceptions). -/
inductive Err where
  | sourceUnavailable
  | queryError
  | notRegistered
  | logFailure
deriving DecidableEq, Repr

/-- `logging.INFO`. -/
def INFO : Nat := 20

/-- Outcomes of the external collaborator calls made during one cache
operation.  The source is read at most once per operation, so a single
`versionCall` / `materializeCall` outcome per operation is faithful. -/
structure Env where
  versionCall : Except Err Nat
  materializeCall : Except Err Batch
  execCall : String → List (String × Batch) → Except Err Batch
  sinkOk : Bool

/-- State of one `ArrowDeltaSimpleCache` instance: the private fields
`__current_version` and `__cached_table`, the DuckDB connection's registry of
named in-memory datasets, and the log messages emitted so far. -/
structure CacheState where
  current_version : Option Nat
  cached_table : Option Batch
  registry : List (String × Batch)
  log : List (Nat × String)
deriving DecidableEq, Repr

/-- Sequencing with Python exception semantics: an error short-circuits but the
state mutations already performed persist. -/
def bindR {α β : Type} (r : Except Err α × CacheState)
    (f : α → CacheState → Except Err β × CacheState) : Except Err β × CacheState :=
  match r with
  | (Except.error e, s) => (Except.error e, s)
  | (Except.ok a, s) => f a s

/-- `self.__logger.log(level, msg)`: appends to the sink, or raises if the sink
fails.  The cache code does not guard these calls. -/
def logMsg (env : Env) (level : Nat) (msg : String) (s : CacheState) :
    Except Err Unit × CacheState :=
  if env.sinkOk then (Except.ok (), { s with log := s.log ++ [(level, msg)] })
  else (Except.error Err.logFailure, s)

/-- The fixed dataset name used by the cache. -/
def paTableName : String := "pa_table"

/-- `con.register(name, batch)` per the engine contract: re-registration under
the same name replaces the existing entry, it does not duplicate. -/
def registerName (name : String) (b : Batch) (reg : List (String × Batch)) :
    List (String × Batch) :=
  if reg.any (fun p => p.1 = name) then
    reg.map (fun p => if p.1 = name then (name, b) else p)
  else reg ++ [(name, b)]

/-- `con.unregister(name)` per the engine contract: removes the entry, fails if
the name is not currently registered. -/
def unregisterName (name : String) (reg : List (String × Batch)) :
    Except Err (List (String × Batch)) :=
  if reg.any (fun p => p.1 = name) then
    Except.ok (reg.filter (fun p => p.1 ≠ name))
  else Except.error Err.notRegistered

/-- `ArrowDeltaSimpleCache.__init__`: both private fields start `None`, the
fresh DuckDB connection has no registrations, nothing logged yet. -/
def construct : CacheState :=
  { current_version := none, cached_table := none, registry := [], log := [] }

/-- The `version` property: returns `self.__current_version`. -/
def version (s : CacheState) : Option Nat := s.current_version

/-- `ArrowDeltaSimpleCache.__check_new_version_available`.  Python compares
`current_version != cached_version` where `current_version : int` and
`cached_version : Optional[int]`; `some current_version ≠ cached_version`
captures exactly that (an `int` is never equal to `None`). -/
def check_new_version_available (env : Env) (s : CacheState) :
    Except Err Bool × CacheState :=
  bindR (logMsg env INFO "Checking for new version of the delta table..." s) fun _ s =>
  bindR (env.versionCall, s) fun current_version s =>
  let cached_version := version s
  if some current_version ≠ cached_version then
    bindR (logMsg env INFO ("New version available: " ++ toString current_version) s)
      fun _ s => (Except.ok true, s)
  else
    bindR (logMsg env INFO "Cached version is up to date." s) fun _ s =>
      (Except.ok false, s)

/-- Registered batch under a given name, if any. -/
def lookupName (name : String) (reg : List (String × Batch)) : Option Batch :=
  (reg.find? (fun p => p.1 = name)).map (fun p => p.2)

/-- `con.execute("SELECT * FROM pa_table").fetch_arrow_table()` as DuckDB
resolves it: the catalog is consulted first, so once `register("pa_table", …)`
has been called, the registered view — bound by reference at registration time
to the batch that was registered — shadows the local Python variable, and the
statement returns that previously registered batch.  Only when nothing is
registered under the name does the replacement scan reach the local variable
`pa_table` (the fresh materialization). -/
def duckdbSelectAll (pa_table : Batch) (reg : List (String × Batch)) : Batch :=
  match lookupName paTableName reg with
  | some registered => registered
  | none => pa_table

/-- `ArrowDeltaSimpleCache.__update_table_cache`.  `to_pyarrow_table()` is the
materialization, bound to the local variable `pa_table`;
`con.execute("SELECT * FROM pa_table").fetch_arrow_table()` is
`duckdbSelectAll` (the registered view, when present, shadows the local
variable — so after the first update this re-fetches the old registered
batch and the fresh materialization is discarded, consistent with the
`# noqa: F841` unused-variable suppression on the source line); then
`self.__cached_table` is assigned and registered under the fixed name.
Note: `__current_version` is never assigned. -/
def update_table_cache (env : Env) (s : CacheState) :
    Except Err Unit × CacheState :=
  bindR (logMsg env INFO "Updating the cache..." s) fun _ s =>
  bindR (env.materializeCall, s) fun pa_table s =>
  let fetched := duckdbSelectAll pa_table s.registry
  let s := { s with cached_table := some fetched }
  let s := { s with registry := registerName paTableName fetched s.registry }
  bindR (logMsg env INFO "Cache updated." s) fun _ s =>
  (Except.ok (), s)

/-- `ArrowDeltaSimpleCache.refresh`. -/
def refresh (env : Env) (s : CacheState) : Except Err Unit × CacheState :=
  bindR (check_new_version_available env s) fun stale s =>
  if stale then update_table_cache env s else (Except.ok (), s)

/-- The `table` property: logs, then returns `self.__cached_table`. -/
def table (env : Env) (s : CacheState) :
    Except Err (Option Batch) × CacheState :=
  bindR (logMsg env INFO "Retrieving the cached deltatable..." s) fun _ s =>
  (Except.ok s.cached_table, s)

/-- `ArrowDeltaSimpleCache.init`. -/
def init (env : Env) (s : CacheState) : Except Err Unit × CacheState :=
  bindR (logMsg env INFO "Initializing the cache..." s) fun _ s =>
  bindR (refresh env s) fun _ s =>
  bindR (logMsg env INFO "Cache initialized successfully." s) fun _ s =>
  (Except.ok (), s)

/-- `ArrowDeltaSimpleCache.clear`: sets `__cached_table = None`, then
unregisters the fixed name.  `__current_version` is not touched. -/
def clear (env : Env) (s : CacheState) : Except Err Unit × CacheState :=
  bindR (logMsg env INFO "Clearing the cache..." s) fun _ s =>
  let s := { s with cached_table := none }
  bindR (unregisterName paTableName s.registry, s) fun reg s =>
  let s := { s with registry := reg }
  bindR (logMsg env INFO "Cache cleared." s) fun _ s =>
  (Except.ok (), s)

/-- `ArrowDeltaSimpleCache.query`: calls `refresh()`, logs, then executes the
SQL on the connection (against the engine's current registry). -/
def query (env : Env) (q : String) (s : CacheState) :
    Except Err Batch × CacheState :=
  bindR (refresh env s) fun _ s =>
  bindR (logMsg env INFO ("Executing query: " ++ q) s) fun _ s =>
  bindR (env.execCall q s.registry, s) fun arrow_res s =>
  (Except.ok arrow_res, s)

/-- One public cache operation together with the collaborator outcomes observed
during it. -/
inductive Op where
  | opInit (env : Env)
  | opRefresh (env : Env)
  | opClear (env : Env)
  | opTable (env : Env)
  | opQuery (env : Env) (q : String)

/-- Run one operation, keeping the post-state whether or not the operation
raised (Python in-place mutation). -/
def runOp (o : Op) (s : CacheState) : CacheState :=
  match o with
  | Op.opInit env => (init env s).2
  | Op.opRefresh env => (refresh env s).2
  | Op.opClear env => (clear env s).2
  | Op.opTable env => (table env s).2
  | Op.opQuery env q => (query env q s).2

/-- Run a sequence of operations from a state. -/
def runOps (ops : List Op) (s : CacheState) : CacheState :=
  ops.foldl (fun s o => runOp o s) s

/-- States reachable from construction by any sequence of public operations. -/
def Reachable (s : CacheState) : Prop :=
  ∃ ops : List Op, s = runOps ops construct

/-- Number of registry entries under a given name. -/
def countName (name : String) (reg : List (String × Batch)) : Nat :=
  (reg.filter (fun p => p.1 = name)).length

/-- The store fields of a state: cached version, cached batch, engine registry
(the log is the external sink, not cache state). -/
def storeOf (s : CacheState) :
    Option Nat × Option Batch × List (String × Batch) :=
  (s.current_version, s.cached_table, s.registry)

/-! ### Generic preservation and characterization lemmas -/

lemma bindR_pres {α β : Type} (P : CacheState → Prop)
    (r : Except Err α × CacheState)
    (f : α → CacheState → Except Err β × CacheState)
    (h1 : P r.2) (h2 : ∀ (a : α) (t : CacheState), P t → P ((f a t).2)) :
    P ((bindR r f).2) := by
  obtain ⟨x, s⟩ := r
  cases x with
  | error e => exact h1
  | ok a => exact h2 a s h1

lemma logMsg_store (env : Env) (l : Nat) (m : String) (s : CacheState) :
    storeOf ((logMsg env l m s).2) = storeOf s := by
  unfold logMsg
  split <;> rfl

lemma logMsg_ok (env : Env) (l : Nat) (m : String) (s : CacheState)
    (hs : env.sinkOk = true) :
    logMsg env l m s = (Except.ok (), { s with log := s.log ++ [(l, m)] }) := by
  simp [logMsg, hs]

lemma logMsg_fail (env : Env) (l : Nat) (m : String) (s : CacheState)
    (hs : env.sinkOk = false) :
    logMsg env l m s = (Except.error Err.logFailure, s) := by
  simp [logMsg, hs]

lemma check_store (env : Env) (s : CacheState) :
    storeOf ((check_new_version_available env s).2) = storeOf s := by
  unfold check_new_version_available
  refine bindR_pres (fun t => storeOf t = storeOf s) _ _
    (logMsg_store env INFO _ s) ?_
  intro _ t ht
  refine bindR_pres (fun t => storeOf t = storeOf s) (env.versionCall, t) _ ht ?_
  intro v t2 ht2
  dsimp only
  split
  · refine bindR_pres (fun t => storeOf t = storeOf s) _ _ ?_ ?_
    · exact (logMsg_store env INFO _ t2).trans ht2
    · intro _ t3 ht3; exact ht3
  · refine bindR_pres (fun t => storeOf t = storeOf s) _ _ ?_ ?_
    · exact (logMsg_store env INFO _ t2).trans ht2
    · intro _ t3 ht3; exact ht3

lemma check_cv (env : Env) (s : CacheState) :
    ((check_new_version_available env s).2).current_version = s.current_version := by
  simpa [storeOf] using congrArg Prod.fst (check_store env s)

lemma check_ok_true (env : Env) (v : Nat) (s : CacheState)
    (hs : env.sinkOk = true) (hv : env.versionCall = Except.ok v)
    (hne : some v ≠ s.current_version) :
    check_new_version_available env s =
      (Except.ok true,
       { s with log := s.log ++
          [(INFO, "Checking for new version of the delta table..."),
           (INFO, "New version available: " ++ toString v)] }) := by
  simp [check_new_version_available, bindR, logMsg, version, hs, hv, hne]

lemma check_ok_false (env : Env) (v : Nat) (s : CacheState)
    (hs : env.sinkOk = true) (hv : env.versionCall = Except.ok v)
    (heq : some v = s.current_version) :
    check_new_version_available env s =
      (Except.ok false,
       { s with log := s.log ++
          [(INFO, "Checking for new version of the delta table..."),
           (INFO, "Cached version is up to date.")] }) := by
  simp [check_new_version_available, bindR, logMsg, version, hs, hv, heq]

lemma check_err (env : Env) (e : Err) (s : CacheState)
    (hs : env.sinkOk = true) (hv : env.versionCall = Except.error e) :
    check_new_version_available env s =
      (Except.error e,
       { s with log := s.log ++
          [(INFO, "Checking for new version of the delta table...")] }) := by
  simp [check_new_version_available, bindR, logMsg, hs, hv]

lemma update_cv (env : Env) (s : CacheState) :
    ((update_table_cache env s).2).current_version = s.current_version := by
  unfold update_table_cache
  refine bindR_pres (fun t => t.current_version = s.current_version) _ _ ?_ ?_
  · simpa [storeOf] using
      congrArg Prod.fst (logMsg_store env INFO "Updating the cache..." s)
  · intro _ t ht
    refine bindR_pres (fun t => t.current_version = s.current_version)
      (env.materializeCall, t) _ ht ?_
    intro b t2 ht2
    dsimp only
    refine bindR_pres (fun t => t.current_version = s.current_version) _ _ ?_ ?_
    · have h1 := congrArg Prod.fst (logMsg_store env INFO "Cache updated."
        { t2 with cached_table := some (duckdbSelectAll b t2.registry),
                  registry := registerName paTableName
                    (duckdbSelectAll b t2.registry) t2.registry })
      simpa [storeOf] using h1.trans (by simpa [storeOf] using ht2)
    · intro _ t3 ht3; exact ht3

lemma update_ok (env : Env) (b : Batch) (s : CacheState)
    (hs : env.sinkOk = true) (hm : env.materializeCall = Except.ok b) :
    update_table_cache env s =
      (Except.ok (),
       { s with cached_table := some (duckdbSelectAll b s.registry),
                registry := registerName paTableName
                  (duckdbSelectAll b s.registry) s.registry,
                log := s.log ++
                  [(INFO, "Updating the cache..."), (INFO, "Cache updated.")] }) := by
  simp [update_table_cache, bindR, logMsg, hs, hm]

lemma update_err (env : Env) (e : Err) (s : CacheState)
    (hs : env.sinkOk = true) (hm : env.materializeCall = Except.error e) :
    update_table_cache env s =
      (Except.error e,
       { s with log := s.log ++ [(INFO, "Updating the cache...")] }) := by
  simp [update_table_cache, bindR, logMsg, hs, hm]

lemma refresh_cv (env : Env) (s : CacheState) :
    ((refresh env s).2).current_version = s.current_version := by
  unfold refresh
  refine bindR_pres (fun t => t.current_version = s.current_version) _ _
    (check_cv env s) ?_
  intro stale t ht
  cases stale with
  | false => simpa using ht
  | true => simpa [update_cv env t] using ht

/-- A refresh in which every collaborator call succeeds, from a state whose
cached version is `None` (every reachable state): the staleness check fires and
the cache is updated. -/
lemma refresh_ok (env : Env) (v : Nat) (b : Batch) (s : CacheState)
    (hs : env.sinkOk = true) (hv : env.versionCall = Except.ok v)
    (hm : env.materializeCall = Except.ok b) (hcv : s.current_version = none) :
    refresh env s =
      (Except.ok (),
       { s with cached_table := some (duckdbSelectAll b s.registry),
                registry := registerName paTableName
                  (duckdbSelectAll b s.registry) s.registry,
                log := s.log ++
                  [(INFO, "Checking for new version of the delta table..."),
                   (INFO, "New version available: " ++ toString v),
                   (INFO, "Updating the cache..."), (INFO, "Cache updated.")] }) := by
  have hne : some v ≠ s.current_version := by rw [hcv]; exact Option.some_ne_none v
  rw [refresh, check_ok_true env v s hs hv hne, bindR, update_ok env b _ hs hm]
  simp

lemma refresh_err_version (env : Env) (e : Err) (s : CacheState)
    (hs : env.sinkOk = true) (hv : env.versionCall = Except.error e) :
    refresh env s =
      (Except.error e,
       { s with log := s.log ++
          [(INFO, "Checking for new version of the delta table...")] }) := by
  rw [refresh, check_err env e s hs hv, bindR]

lemma refresh_err_materialize (env : Env) (v : Nat) (e : Err) (s : CacheState)
    (hs : env.sinkOk = true) (hv : env.versionCall = Except.ok v)
    (hm : env.materializeCall = Except.error e) (hcv : s.current_version = none) :
    refresh env s =
      (Except.error e,
       { s with log := s.log ++
          [(INFO, "Checking for new version of the delta table..."),
           (INFO, "New version available: " ++ toString v),
           (INFO, "Updating the cache...")] }) := by
  have hne : some v ≠ s.current_version := by rw [hcv]; exact Option.some_ne_none v
  rw [refresh, check_ok_true env v s hs hv hne, bindR, update_err env e _ hs hm]
  simp

lemma table_ok (env : Env) (s : CacheState) (hs : env.sinkOk = true) :
    table env s =
      (Except.ok s.cached_table,
       { s with log := s.log ++ [(INFO, "Retrieving the cached deltatable...")] }) := by
  simp [table, bindR, logMsg, hs]

lemma clear_ok (env : Env) (s : CacheState) (hs : env.sinkOk = true)
    (hr : (s.registry.any fun p => p.1 = paTableName) = true) :
    clear env s =
      (Except.ok (),
       { s with cached_table := none,
                registry := s.registry.filter (fun p => p.1 ≠ paTableName),
                log := s.log ++
                  [(INFO, "Clearing the cache..."), (INFO, "Cache cleared.")] }) := by
  simp [clear, bindR, logMsg, unregisterName, hs, hr]

lemma clear_notRegistered (env : Env) (s : CacheState) (hs : env.sinkOk = true)
    (hr : (s.registry.any fun p => p.1 = paTableName) = false) :
    clear env s =
      (Except.error Err.notRegistered,
       { s with cached_table := none,
                log := s.log ++ [(INFO, "Clearing the cache...")] }) := by
  simp [clear, bindR, logMsg, unregisterName, hs, hr]

lemma check_sinkFail (env : Env) (s : CacheState) (hs : env.sinkOk = false) :
    check_new_version_available env s = (Except.error Err.logFailure, s) := by
  simp [check_new_version_available, bindR, logMsg, hs]

lemma refresh_sinkFail (env : Env) (s : CacheState) (hs : env.sinkOk = false) :
    refresh env s = (Except.error Err.logFailure, s) := by
  rw [refresh, check_sinkFail env s hs, bindR]

lemma clear_sinkFail (env : Env) (s : CacheState) (hs : env.sinkOk = false) :
    clear env s = (Except.error Err.logFailure, s) := by
  simp [clear, bindR, logMsg, hs]

lemma table_sinkFail (env : Env) (s : CacheState) (hs : env.sinkOk = false) :
    table env s = (Except.error Err.logFailure, s) := by
  simp [table, bindR, logMsg, hs]

lemma init_sinkFail (env : Env) (s : CacheState) (hs : env.sinkOk = false) :
    init env s = (Except.error Err.logFailure, s) := by
  simp [init, bindR, logMsg, hs]

lemma query_sinkFail (env : Env) (q : String) (s : CacheState)
    (hs : env.sinkOk = false) :
    query env q s = (Except.error Err.logFailure, s) := by
  rw [query, refresh_sinkFail env s hs, bindR]

/-! ### The reachable-state invariant -/

/-- Invariant maintained by every public operation: the cached version is still
the `None` it was initialized to, and the engine registry only ever holds
entries under the fixed name. -/
def Inv (s : CacheState) : Prop :=
  s.current_version = none ∧ ∀ p ∈ s.registry, p.1 = paTableName

lemma Inv_construct : Inv construct := by
  constructor
  · rfl
  · intro p hp
    simp [construct] at hp

lemma logMsg_inv (env : Env) (l : Nat) (m : String) (s : CacheState)
    (h : Inv s) : Inv ((logMsg env l m s).2) := by
  unfold logMsg
  split
  · exact h
  · exact h

lemma registerName_regOnly (b : Batch) (reg : List (String × Batch))
    (h : ∀ p ∈ reg, p.1 = paTableName) :
    ∀ p ∈ registerName paTableName b reg, p.1 = paTableName := by
  unfold registerName
  split
  · intro p hp
    rcases List.mem_map.1 hp with ⟨q, hq, hpq⟩
    by_cases hq1 : q.1 = paTableName
    · rw [← hpq]
      simp [hq1]
    · exact absurd (h q hq) hq1
  · intro p hp
    rcases List.mem_append.1 hp with h1 | h2
    · exact h p h1
    · rw [List.mem_singleton.1 h2]

lemma check_inv (env : Env) (s : CacheState) (h : Inv s) :
    Inv ((check_new_version_available env s).2) := by
  have hst := check_store env s
  obtain ⟨h1, h2⟩ := h
  constructor
  · have := congrArg Prod.fst hst
    simpa [storeOf] using this.trans h1
  · have := congrArg (fun p => p.2.2) hst
    simp only [storeOf] at this
    rw [this]
    exact h2

lemma update_inv (env : Env) (s : CacheState) (h : Inv s) :
    Inv ((update_table_cache env s).2) := by
  unfold update_table_cache
  refine bindR_pres Inv _ _ (logMsg_inv env INFO _ s h) ?_
  intro _ t ht
  refine bindR_pres Inv (env.materializeCall, t) _ ht ?_
  intro b t2 ht2
  dsimp only
  refine bindR_pres Inv _ _ ?_ ?_
  · refine logMsg_inv env INFO _ _ ⟨ht2.1, ?_⟩
    exact registerName_regOnly (duckdbSelectAll b t2.registry) t2.registry ht2.2
  · intro _ t3 ht3
    exact ht3

lemma refresh_inv (env : Env) (s : CacheState) (h : Inv s) :
    Inv ((refresh env s).2) := by
  unfold refresh
  refine bindR_pres Inv _ _ (check_inv env s h) ?_
  intro stale t ht
  cases stale with
  | false => exact ht
  | true => exact update_inv env t ht

lemma table_inv (env : Env) (s : CacheState) (h : Inv s) :
    Inv ((table env s).2) := by
  unfold table
  refine bindR_pres Inv _ _ (logMsg_inv env INFO _ s h) ?_
  intro _ t ht
  exact ht

lemma init_inv (env : Env) (s : CacheState) (h : Inv s) :
    Inv ((init env s).2) := by
  unfold init
  refine bindR_pres Inv _ _ (logMsg_inv env INFO _ s h) ?_
  intro _ t ht
  refine bindR_pres Inv _ _ (refresh_inv env t ht) ?_
  intro _ t2 ht2
  refine bindR_pres Inv _ _ (logMsg_inv env INFO _ t2 ht2) ?_
  intro _ t3 ht3
  exact ht3

lemma clear_inv (env : Env) (s : CacheState) (h : Inv s) :
    Inv ((clear env s).2) := by
  cases hs : env.sinkOk with
  | false => rw [clear_sinkFail env s hs]; exact h
  | true =>
    cases hr : (s.registry.any fun p => p.1 = paTableName) with
    | false =>
      rw [clear_notRegistered env s hs hr]
      exact ⟨h.1, h.2⟩
    | true =>
      rw [clear_ok env s hs hr]
      refine ⟨h.1, ?_⟩
      intro p hp
      exact h.2 p (List.mem_of_mem_filter hp)

lemma query_inv (env : Env) (q : String) (s : CacheState) (h : Inv s) :
    Inv ((query env q s).2) := by
  unfold query
  refine bindR_pres Inv _ _ (refresh_inv env s h) ?_
  intro _ t ht
  refine bindR_pres Inv _ _ (logMsg_inv env INFO _ t ht) ?_
  intro _ t2 ht2
  refine bindR_pres Inv (env.execCall q t2.registry, t2) _ ht2 ?_
  intro _ t3 ht3
  exact ht3

lemma runOp_inv (o : Op) (s : CacheState) (h : Inv s) : Inv (runOp o s) := by
  cases o with
  | opInit env => exact init_inv env s h
  | opRefresh env => exact refresh_inv env s h
  | opClear env => exact clear_inv env s h
  | opTable env => exact table_inv env s h
  | opQuery env q => exact query_inv env q s h

lemma runOps_inv (ops : List Op) (s : CacheState) (h : Inv s) :
    Inv (runOps ops s) := by
  induction ops generalizing s with
  | nil => exact h
  | cons o tl ih =>
    unfold runOps
    simp only [List.foldl_cons]
    exact ih (runOp o s) (runOp_inv o s h)

lemma reachable_inv {s : CacheState} (h : Reachable s) : Inv s := by
  obtain ⟨ops, rfl⟩ := h
  exact runOps_inv ops construct Inv_construct

lemma runOps_cons (o : Op) (ops : List Op) (s : CacheState) :
    runOps (o :: ops) s = runOps ops (runOp o s) := rfl

/-! ### Registry counting and lookup lemmas -/

lemma countName_map_replace (name : String) (b : Batch)
    (reg : List (String × Batch)) :
    countName name (reg.map (fun p => if p.1 = name then (name, b) else p)) =
      countName name reg := by
  induction reg with
  | nil => rfl
  | cons hd tl ih =>
    unfold countName at ih ⊢
    by_cases h : hd.1 = name <;>
      simp [List.filter_cons, h, ih]

lemma countName_eq_zero_of_any_false (name : String)
    (reg : List (String × Batch))
    (h : (reg.any fun p => p.1 = name) = false) : countName name reg = 0 := by
  unfold countName
  simp only [List.length_eq_zero, List.filter_eq_nil_iff]
  intro p hp
  have := List.any_eq_false.1 h p hp
  simpa using this

lemma countName_ne_zero_of_any_true (name : String)
    (reg : List (String × Batch))
    (h : (reg.any fun p => p.1 = name) = true) : countName name reg ≠ 0 := by
  rcases List.any_eq_true.1 h with ⟨p, hp, hpn⟩
  unfold countName
  simp only [ne_eq, List.length_eq_zero, List.filter_eq_nil_iff]
  intro hall
  exact hall p hp hpn

lemma countName_registerName (name : String) (b : Batch)
    (reg : List (String × Batch)) :
    countName name (registerName name b reg) =
      if countName name reg = 0 then 1 else countName name reg := by
  unfold registerName
  cases hany : (reg.any fun p => p.1 = name) with
  | false =>
    have h0 := countName_eq_zero_of_any_false name reg hany
    simp only [hany, Bool.false_eq_true, if_false, h0, if_pos]
    unfold countName at h0 ⊢
    simp [List.filter_append, List.length_eq_zero.1 h0]
  | true =>
    have h0 := countName_ne_zero_of_any_true name reg hany
    simp only [hany, if_true, countName_map_replace, if_neg h0]

lemma find_map_replace (name : String) (b : Batch)
    (reg : List (String × Batch))
    (h : (reg.any fun p => p.1 = name) = true) :
    (reg.map (fun p => if p.1 = name then (name, b) else p)).find?
      (fun p => p.1 = name) = some (name, b) := by
  induction reg with
  | nil => simp at h
  | cons hd tl ih =>
    by_cases hh : hd.1 = name
    · simp [List.find?_cons, hh]
    · have htl : (tl.any fun p => p.1 = name) = true := by
        simpa [List.any_cons, hh] using h
      simp [List.find?_cons, hh, ih htl]

lemma lookupName_registerName (b : Batch) (reg : List (String × Batch)) :
    lookupName paTableName (registerName paTableName b reg) = some b := by
  unfold lookupName registerName
  cases hany : (reg.any fun p => p.1 = paTableName) with
  | true => simp [find_map_replace paTableName b reg hany]
  | false =>
    simp only [hany, Bool.false_eq_true, if_false]
    rw [List.find?_append]
    have hn : reg.find? (fun p => p.1 = paTableName) = none := by
      rw [List.find?_eq_none]
      intro p hp
      simpa using List.any_eq_false.1 hany p hp
    simp [hn, List.find?_cons]

lemma filter_ne_paTableName_nil (reg : List (String × Batch))
    (h : ∀ p ∈ reg, p.1 = paTableName) :
    reg.filter (fun p => p.1 ≠ paTableName) = [] := by
  rw [List.filter_eq_nil_iff]
  intro p hp
  simp [h p hp]

/-- Every collaborator call made by one refresh succeeds. -/
def EnvOk (env : Env) : Prop :=
  env.sinkOk = true ∧ (∃ v, env.versionCall = Except.ok v) ∧
    (∃ b, env.materializeCall = Except.ok b)

lemma refreshes_keep_one (envs : List Env) (s : CacheState)
    (hok : ∀ env ∈ envs, EnvOk env)
    (hcv : s.current_version = none)
    (hc : countName paTableName s.registry = 1) :
    countName paTableName (runOps (envs.map Op.opRefresh) s).registry = 1 := by
  induction envs generalizing s with
  | nil => exact hc
  | cons env tl ih =>
    obtain ⟨hs, ⟨v, hv⟩, ⟨b, hm⟩⟩ := hok env (List.mem_cons_self env tl)
    rw [List.map_cons, runOps_cons]
    have hstep : runOp (Op.opRefresh env) s = (refresh env s).2 := rfl
    rw [hstep, refresh_ok env v b s hs hv hm hcv]
    refine ih _ (fun e he => hok e (List.mem_cons_of_mem env he)) hcv ?_
    show countName paTableName
      (registerName paTableName (duckdbSelectAll b s.registry) s.registry) = 1
    rw [countName_registerName, hc]
    simp

lemma bindR_pure_fst {α : Type} (r : Except Err α) (s : CacheState) :
    (bindR (r, s) fun a s => (Except.ok a, s)).1 = r := by
  cases r <;> rfl

/-! ### Concrete test environments -/

/-- Query-engine behaviour of the concrete test environments: executing any SQL
returns the batch registered under the fixed name, failing when none is. -/
def execLookup : String → List (String × Batch) → Except Err Batch :=
  fun _ reg =>
    match lookupName paTableName reg with
    | some b => Except.ok b
    | none => Except.error Err.queryError

/-- Source at version 3, materializing batch 7; everything succeeds. -/
def env0 : Env := ⟨Except.ok 3, Except.ok 7, execLookup, true⟩

/-- Source at version 1, materializing batch 5; everything succeeds. -/
def env1 : Env := ⟨Except.ok 1, Except.ok 5, execLookup, true⟩

/-- Source advanced to version 2, materializing batch 7. -/
def env2 : Env := ⟨Except.ok 2, Except.ok 7, execLookup, true⟩

/-- Collaborators fine, but the logger sink raises. -/
def envBad : Env := ⟨Except.ok 1, Except.ok 1, execLookup, false⟩

/-- The source's version read raises. -/
def envErrV : Env := ⟨Except.error Err.sourceUnavailable, Except.ok 1, execLookup, true⟩

/-- The source's materialize call raises. -/
def envErrM : Env := ⟨Except.ok 3, Except.error Err.sourceUnavailable, execLookup, true⟩

/-- Cache state after one refresh against a source at version 1 with
materialization 5. -/
def s0 : CacheState := (refresh env1 construct).2

/-! ### Claims -/

/-- C1: the code contradicts this claim.  Evaluated at the failing input (fresh
cache, source at version 3 materializing batch 7): a successful updating
refresh stores the new batch but leaves the stored version `None`, not the
source version observed at refresh time — the (version, batch) pair is updated
one without the other. -/
theorem refresh_updates_batch_without_version :
    (refresh env0 construct).1 = Except.ok () ∧
    ((refresh env0 construct).2).cached_table = some 7 ∧
    env0.versionCall = Except.ok 3 ∧
    ((refresh env0 construct).2).current_version = none ∧
    ((refresh env0 construct).2).current_version ≠ some 3 := by
  refine ⟨rfl, rfl, rfl, rfl, ?_⟩
  intro h
  exact Option.noConfusion h

/-- C2: the code contradicts this claim.  Two consecutive refreshes with the
source unchanged at version 3: because the cached version is still `None`, the
second call's staleness check again reports a new version, and the cache is
materialized and registered a second time ("Updating the cache..." is logged
twice). -/
theorem second_refresh_refetches :
    (check_new_version_available env0 ((refresh env0 construct).2)).1 =
      Except.ok true ∧
    (((refresh env0 ((refresh env0 construct).2)).2).log.filter
      (fun p => p.2 = "Updating the cache...")).length = 2 ∧
    ((refresh env0 ((refresh env0 construct).2)).2).cached_table = some 7 := by
  exact ⟨rfl, by decide, rfl⟩

/-- C3: the code contradicts the freshness half of this claim.  `query` does
call `refresh()` first, but at the failing input — one prior refresh cached
and registered batch 5 at source version 1, the source now at version 2
materializing batch 7 — the refresh performed inside `query` re-fetches the
registered view (the old batch 5), which shadows the fresh materialization, so
the SQL is answered against the original snapshot, strictly older than the
source's version at the moment `query` was called. -/
theorem query_after_bump_answers_stale_snapshot :
    ((refresh env2 s0).2).cached_table = some 5 ∧
    lookupName paTableName ((refresh env2 s0).2).registry = some 5 ∧
    env2.versionCall = Except.ok 2 ∧
    env2.materializeCall = Except.ok 7 ∧
    (query env2 "SELECT 1" s0).1 = Except.ok 5 ∧
    (query env2 "SELECT 1" s0).1 ≠ Except.ok 7 := by
  refine ⟨rfl, rfl, rfl, rfl, rfl, ?_⟩
  intro h
  have h5 : (query env2 "SELECT 1" s0).1 = Except.ok 5 := rfl
  rw [h5] at h
  cases h

/-- C4 counterexample: the `table` accessor does not call `refresh()`.  From
the state cached at source version 1 (batch 5), with the source now at version
2 materializing batch 7, the accessor emits only its own retrieval log entry —
the staleness-check entry that every `refresh` begins with never appears —
mutates no store field, and returns the version-1 batch, not a batch
reflecting a version at least as new as the source's version 2. -/
theorem table_does_not_refresh_cex :
    (table env2 s0).1 = Except.ok (some 5) ∧
    ((table env2 s0).2).log =
      s0.log ++ [(INFO, "Retrieving the cached deltatable...")] ∧
    storeOf ((table env2 s0).2) = storeOf s0 ∧
    env2.versionCall = Except.ok 2 ∧
    env2.materializeCall = Except.ok 7 ∧
    (table env2 s0).1 ≠ Except.ok (some 7) := by
  refine ⟨rfl, by decide, rfl, rfl, rfl, ?_⟩
  intro h
  have h5 : (table env2 s0).1 = Except.ok (some 5) := rfl
  rw [h5] at h
  cases h

/-- C4 amended: the `table` accessor performs no refresh: it emits one log
entry and returns the currently cached batch (possibly stale or absent)
unchanged, mutating no store field. -/
theorem table_returns_cached_without_refresh (env : Env) (s : CacheState)
    (hs : env.sinkOk = true) :
    (table env s).1 = Except.ok s.cached_table ∧
    storeOf ((table env s).2) = storeOf s := by
  rw [table_ok env s hs]
  exact ⟨rfl, rfl⟩

/-- C4 witness for the amended claim, at the stale concrete state. -/
theorem table_returns_cached_without_refresh_witness :
    (table env2 s0).1 = Except.ok s0.cached_table ∧
    storeOf ((table env2 s0).2) = storeOf s0 :=
  table_returns_cached_without_refresh env2 s0 rfl

/-- C5: when the version read succeeds and the sink does not fail, the
staleness check returns true iff the source's version differs from the cached
version (hence always when the cached version is unset), emits informational
log entries only, and mutates no store field. -/
theorem check_reports_iff_version_differs (env : Env) (s : CacheState) (v : Nat)
    (hs : env.sinkOk = true) (hv : env.versionCall = Except.ok v) :
    ((check_new_version_available env s).1 = Except.ok true ↔
      some v ≠ s.current_version) ∧
    (s.current_version = none →
      (check_new_version_available env s).1 = Except.ok true) ∧
    storeOf ((check_new_version_available env s).2) = storeOf s ∧
    ∃ entries, entries ≠ [] ∧
      ((check_new_version_available env s).2).log = s.log ++ entries ∧
      ∀ p ∈ entries, p.1 = INFO := by
  by_cases hne : some v ≠ s.current_version
  · rw [check_ok_true env v s hs hv hne]
    refine ⟨by simp [hne], fun _ => rfl, rfl, ?_⟩
    refine ⟨[(INFO, "Checking for new version of the delta table..."),
             (INFO, "New version available: " ++ toString v)], by simp, rfl, ?_⟩
    intro p hp
    simp only [List.mem_cons, List.not_mem_nil, or_false] at hp
    rcases hp with rfl | rfl <;> rfl
  · push_neg at hne
    rw [check_ok_false env v s hs hv hne]
    refine ⟨by simp [hne], ?_, rfl, ?_⟩
    · intro h
      rw [h] at hne
      exact absurd hne (Option.some_ne_none v)
    · refine ⟨[(INFO, "Checking for new version of the delta table..."),
               (INFO, "Cached version is up to date.")], by simp, rfl, ?_⟩
      intro p hp
      simp only [List.mem_cons, List.not_mem_nil, or_false] at hp
      rcases hp with rfl | rfl <;> rfl

/-- C5 witness: the staleness check on a fresh cache against a source at
version 1 reports a new version and mutates nothing. -/
theorem check_reports_iff_version_differs_witness :
    (check_new_version_available env1 construct).1 = Except.ok true ∧
    storeOf ((check_new_version_available env1 construct).2) =
      storeOf construct := by
  have h := check_reports_iff_version_differs env1 construct 1 rfl rfl
  exact ⟨h.2.1 rfl, h.2.2.1⟩

/-- C6: after a successful `clear()` from any reachable state, the cached
batch is absent, the cached version is unset, the fixed name is no longer
registered, and the store fields equal those of the pre-`init` state. -/
theorem clear_resets_to_preinit (env : Env) (s : CacheState)
    (hreach : Reachable s) (hok : (clear env s).1 = Except.ok ()) :
    ((clear env s).2).cached_table = none ∧
    ((clear env s).2).current_version = none ∧
    ((clear env s).2).registry = [] ∧
    storeOf ((clear env s).2) = storeOf construct := by
  have hinv := reachable_inv hreach
  cases hs : env.sinkOk with
  | false =>
    rw [clear_sinkFail env s hs] at hok
    cases hok
  | true =>
    cases hany : (s.registry.any fun p => p.1 = paTableName) with
    | false =>
      rw [clear_notRegistered env s hs hany] at hok
      cases hok
    | true =>
      have hfil := filter_ne_paTableName_nil s.registry hinv.2
      rw [clear_ok env s hs hany]
      refine ⟨rfl, hinv.1, hfil, ?_⟩
      show (s.current_version, (none : Option Batch),
        s.registry.filter (fun p => p.1 ≠ paTableName)) = storeOf construct
      rw [hinv.1, hfil]
      rfl

/-- C6 witness: clearing the concrete refreshed state succeeds and lands in
the pre-`init` store. -/
theorem clear_resets_to_preinit_witness :
    ((clear env2 s0).2).cached_table = none ∧
    ((clear env2 s0).2).current_version = none ∧
    ((clear env2 s0).2).registry = [] ∧
    storeOf ((clear env2 s0).2) = storeOf construct :=
  clear_resets_to_preinit env2 s0 ⟨[Op.opRefresh env1], rfl⟩ rfl

/-- C7: if the source's version read fails, or the materialize call fails
(from a reachable-state cached version, i.e. `None`), `refresh` propagates
that error and mutates no store field: version, batch and registration all
stay exactly as they were. -/
theorem refresh_failure_preserves_state (env : Env) (s : CacheState)
    (hs : env.sinkOk = true) :
    (∀ e, env.versionCall = Except.error e →
      (refresh env s).1 = Except.error e ∧
      storeOf ((refresh env s).2) = storeOf s) ∧
    (∀ v e, env.versionCall = Except.ok v →
      env.materializeCall = Except.error e → s.current_version = none →
      (refresh env s).1 = Except.error e ∧
      storeOf ((refresh env s).2) = storeOf s) := by
  constructor
  · intro e he
    rw [refresh_err_version env e s hs he]
    exact ⟨rfl, rfl⟩
  · intro v e hv hm hcv
    rw [refresh_err_materialize env v e s hs hv hm hcv]
    exact ⟨rfl, rfl⟩

/-- C7 witness: a failing version read and a failing materialize call, each on
a fresh cache, both propagate and leave the store untouched. -/
theorem refresh_failure_preserves_state_witness :
    (refresh envErrV construct).1 = Except.error Err.sourceUnavailable ∧
    storeOf ((refresh envErrV construct).2) = storeOf construct ∧
    (refresh envErrM construct).1 = Except.error Err.sourceUnavailable ∧
    storeOf ((refresh envErrM construct).2) = storeOf construct := by
  have h1 := (refresh_failure_preserves_state envErrV construct rfl).1
    Err.sourceUnavailable rfl
  have h2 := (refresh_failure_preserves_state envErrM construct rfl).2
    3 Err.sourceUnavailable rfl rfl rfl
  exact ⟨h1.1, h1.2, h2.1, h2.2⟩

/-- C8: after any nonempty sequence of refreshes whose collaborator calls all
succeed (each such refresh performs an update, since the cached version stays
`None`), the engine holds exactly one registration under the fixed name, by
the replace-not-duplicate registration contract. -/
theorem refreshes_single_registry_entry (envs : List Env)
    (hne : envs ≠ []) (hok : ∀ env ∈ envs, EnvOk env) :
    countName paTableName
      (runOps (envs.map Op.opRefresh) construct).registry = 1 := by
  cases envs with
  | nil => exact absurd rfl hne
  | cons env tl =>
    obtain ⟨hs, ⟨v, hv⟩, ⟨b, hm⟩⟩ := hok env (List.mem_cons_self env tl)
    rw [List.map_cons, runOps_cons]
    have hstep : runOp (Op.opRefresh env) construct =
        (refresh env construct).2 := rfl
    rw [hstep, refresh_ok env v b construct hs hv hm rfl]
    refine refreshes_keep_one tl _
      (fun e he => hok e (List.mem_cons_of_mem env he)) rfl ?_
    show countName paTableName
      (registerName paTableName (duckdbSelectAll b construct.registry)
        construct.registry) = 1
    rw [countName_registerName]
    decide

/-- C8 witness: two refreshes at versions 3 then 2 leave exactly one
registration under the fixed name. -/
theorem refreshes_single_registry_entry_witness :
    countName paTableName
      (runOps ([env0, env2].map Op.opRefresh) construct).registry = 1 := by
  refine refreshes_single_registry_entry [env0, env2] (by simp) ?_
  intro e he
  simp only [List.mem_cons, List.not_mem_nil, or_false] at he
  rcases he with rfl | rfl
  · exact ⟨rfl, ⟨3, rfl⟩, ⟨7, rfl⟩⟩
  · exact ⟨rfl, ⟨2, rfl⟩, ⟨7, rfl⟩⟩

/-- C9 counterexample: a failure raised by the logger sink does propagate to
the caller and aborts the operation.  With a raising sink, every operation on
a fresh cache raises the sink's failure. -/
theorem logger_failure_aborts_cex :
    (check_new_version_available envBad construct).1 =
      Except.error Err.logFailure ∧
    (refresh envBad construct).1 = Except.error Err.logFailure ∧
    (init envBad construct).1 = Except.error Err.logFailure ∧
    (clear envBad construct).1 = Except.error Err.logFailure ∧
    (table envBad construct).1 = Except.error Err.logFailure ∧
    (query envBad "SELECT 1" construct).1 = Except.error Err.logFailure :=
  ⟨rfl, rfl, rfl, rfl, rfl, rfl⟩

/-- C9 amended: the cache invokes the logger sink unguarded, so a sink failure
propagates to the caller of every cache operation and aborts it (leaving the
state as it was at the first log call). -/
theorem logger_failure_propagates (env : Env) (q : String) (s : CacheState)
    (hs : env.sinkOk = false) :
    check_new_version_available env s = (Except.error Err.logFailure, s) ∧
    refresh env s = (Except.error Err.logFailure, s) ∧
    init env s = (Except.error Err.logFailure, s) ∧
    clear env s = (Except.error Err.logFailure, s) ∧
    table env s = (Except.error Err.logFailure, s) ∧
    query env q s = (Except.error Err.logFailure, s) :=
  ⟨check_sinkFail env s hs, refresh_sinkFail env s hs, init_sinkFail env s hs,
   clear_sinkFail env s hs, table_sinkFail env s hs, query_sinkFail env q s hs⟩

/-- C9 witness for the amended claim, at the raising sink and a fresh cache. -/
theorem logger_failure_propagates_witness :
    refresh envBad construct = (Except.error Err.logFailure, construct) ∧
    query envBad "SELECT 1" construct =
      (Except.error Err.logFailure, construct) := by
  have h := logger_failure_propagates envBad "SELECT 1" construct rfl
  exact ⟨h.2.1, h.2.2.2.2.2⟩

/-- C10: in every reachable state the stored version equals the unset sentinel
`None` — no operation ever assigns it — so whenever the source's version read
returns a value (a Python `int`, never `None`), the staleness check reports a
new version available. -/
theorem version_never_assigned (s : CacheState) (hreach : Reachable s) :
    s.current_version = none ∧
    ∀ env v, env.sinkOk = true → env.versionCall = Except.ok v →
      (check_new_version_available env s).1 = Except.ok true := by
  have hinv := reachable_inv hreach
  refine ⟨hinv.1, ?_⟩
  intro env v hs hv
  rw [check_ok_true env v s hs hv (by rw [hinv.1]; exact Option.some_ne_none v)]

/-- C10 witness: the invariant at the state reached by one refresh, checked
against a source at version 2. -/
theorem version_never_assigned_witness :
    (runOps [Op.opRefresh env1] construct).current_version = none ∧
    (check_new_version_available env2
      (runOps [Op.opRefresh env1] construct)).1 = Except.ok true := by
  have h := version_never_assigned (runOps [Op.opRefresh env1] construct)
    ⟨[Op.opRefresh env1], rfl⟩
  exact ⟨h.1, h.2 env2 2 rfl rfl⟩

end DeltaUtils
